import Mathlib

/-!
Verification of the Sports Health Centers API (`src/main.py`).

The service loads a static collection of center records and exposes read-only
endpoints: pagination over the full collection, lookup by id, case-insensitive
substring search over name/description/discipline, substring filters on the raw
discipline and pathology fields, aggregation of the `\r\n`-delimited
discipline/pathology tokens, and a haversine-based radius search whose results
carry a `distance_km` field rounded to two decimals and are sorted by it with a
stable sort.

Modelling conventions:
* Record coordinates are stored as rationals (JSON decimal literals) and are
  cast to `ℝ` where the code calls `float(...)`; the geodesic computation is
  over `ℝ` (the idealisation of Python floats).
* Python `str.lower` is modelled per-character (`Char.toLower`, its ASCII
  restriction), Python substring membership `a in b` as list-infix of the
  character data, `str.split("\r\n")` and `str.strip()` as explicit
  `List Char` recursions with identical semantics, and `sorted` on strings as
  an insertion sort by code-point lexicographic order.  Python's `list.sort`
  is a stable sort, and `List.insertionSort` is extensionally the unique
  stable sort, so it embeds `results.sort(key=...)` faithfully.
* FastAPI's parameter validation (`Query(ge=..., le=..., min_length=...)`)
  runs before the handler body; it is modelled in the request-dispatch
  function `step`, which also carries the (immutable) collection through.
-/

namespace RegionalCenters

/-- Center record as loaded from the dataset, with the fields the handlers
read: `id`, `Name`, `Description`, `Discipline`, `Pathologies / Prévention`,
address and the two coordinate fields. -/
structure Center where
  id : String
  name : String
  description : String
  discipline : String
  pathologies : String
  address : String
  lat : ℚ
  lng : ℚ
deriving DecidableEq

/-- Model of Python `str.lower`: lowercase each character. -/
def lowerStr (s : String) : String := String.mk (s.data.map Char.toLower)

/-- Model of Python `needle in hay`: the needle occurs as a contiguous
substring of the haystack. -/
def strContains (hay needle : String) : Prop := needle.data <:+: hay.data

instance (hay needle : String) : Decidable (strContains hay needle) := by
  unfold strContains; exact inferInstance

/-- Boolean form of `strContains`, used in the handler filters. -/
def strContainsB (hay needle : String) : Bool := decide (strContains hay needle)

/-- Model of Python `s.split("\r\n")`: split at each non-overlapping
occurrence of the two-character separator, scanning left to right. -/
def splitCRLF : List Char → List (List Char)
  | [] => [[]]
  | '\r' :: '\n' :: rest => [] :: splitCRLF rest
  | c :: rest =>
    match splitCRLF rest with
    | [] => [[c]]
    | h :: t => (c :: h) :: t

/-- Model of Python `str.strip()`: drop whitespace from both ends. -/
def stripChars (l : List Char) : List Char :=
  ((l.dropWhile Char.isWhitespace).reverse.dropWhile Char.isWhitespace).reverse

/-- Tokens of a multi-value field: split on `\r\n`, strip each segment,
drop the segments that are empty after stripping. -/
def fieldTokens (field : String) : List String :=
  ((splitCRLF field.data).map (fun l => String.mk (stripChars l))).filter (fun s => s ≠ "")

/-- Code-point lexicographic order on character lists (Python's `<` on
strings, which `sorted` uses). -/
def lexLe : List Char → List Char → Bool
  | [], _ => true
  | _ :: _, [] => false
  | a :: as, b :: bs => if a < b then true else if b < a then false else lexLe as bs

/-- Sort relation for `sorted(...)` on strings. -/
def strLeRel (a b : String) : Prop := lexLe a.data b.data = true

instance (a b : String) : Decidable (strLeRel a b) := by
  unfold strLeRel; exact inferInstance

/-- Embeds `search_centers` (src/main.py:81-91): keep, in collection order,
the centers whose lowercased name, description or raw discipline field
contains the lowercased keyword. -/
def search_centers (q : String) (centers : List Center) : List Center :=
  centers.filter fun c =>
    strContainsB (lowerStr c.name) (lowerStr q) ||
    strContainsB (lowerStr c.description) (lowerStr q) ||
    strContainsB (lowerStr c.discipline) (lowerStr q)

/-- Embeds `get_by_discipline` (src/main.py:94-99): substring match of the
lowercased name against the lowercased raw discipline field. -/
def get_by_discipline (name : String) (centers : List Center) : List Center :=
  centers.filter fun c => strContainsB (lowerStr c.discipline) (lowerStr name)

/-- Embeds `get_by_pathology` (src/main.py:114-119): same semantics against
the raw pathologies field. -/
def get_by_pathology (name : String) (centers : List Center) : List Center :=
  centers.filter fun c => strContainsB (lowerStr c.pathologies) (lowerStr name)

/-- Embeds `list_disciplines` (src/main.py:102-111): collect the trimmed
nonempty `\r\n`-separated segments of every record's discipline field into a
set and return them sorted (Python `sorted(set)`; modelled as
deduplication followed by a sort in code-point order). -/
def list_disciplines (centers : List Center) : List String :=
  List.insertionSort strLeRel ((centers.flatMap fun c => fieldTokens c.discipline).dedup)

/-- Embeds `list_pathologies` (src/main.py:122-131), identically over the
pathologies field. -/
def list_pathologies (centers : List Center) : List String :=
  List.insertionSort strLeRel ((centers.flatMap fun c => fieldTokens c.pathologies).dedup)

/-- Embeds the slice `centers[offset:offset + limit]` of
`get_all_centers` (src/main.py:58-69). -/
def get_all_centers (limit offset : Nat) (centers : List Center) : List Center :=
  (centers.drop offset).take limit

/-- Embeds the lookup loop of `get_center_by_id` (src/main.py:72-78): first
record whose id equals the query id, if any. -/
def get_center_by_id (cid : String) (centers : List Center) : Option Center :=
  centers.find? fun c => c.id == cid

/-- Embeds `haversine_distance` (src/main.py:30-38): great-circle distance in
kilometers, Earth radius 6371, degree inputs converted to radians. -/
noncomputable def haversine_distance (lat1 lon1 lat2 lon2 : ℝ) : ℝ :=
  6371 * (2 * Real.arcsin (Real.sqrt (
    Real.sin ((lat2 * Real.pi / 180 - lat1 * Real.pi / 180) / 2) ^ 2 +
    Real.cos (lat1 * Real.pi / 180) * Real.cos (lat2 * Real.pi / 180) *
      Real.sin ((lon2 * Real.pi / 180 - lon1 * Real.pi / 180) / 2) ^ 2)))

/-- Model of Python `round(x, 2)`: round to the nearest multiple of `0.01`
(Python breaks exact ties to even on the underlying binary float; exact
decimal ties are measure-zero there, and none occurs in the facts proved
below, so the tie convention is immaterial). -/
noncomputable def round2 (x : ℝ) : ℝ := ((round (x * 100) : ℤ) : ℝ) / 100

/-- Sort relation used by `results.sort(key=lambda x: x["distance_km"])`. -/
def distKeyRel (x y : Center × ℝ) : Prop := x.2 ≤ y.2

noncomputable instance (x y : Center × ℝ) : Decidable (distKeyRel x y) := by
  unfold distKeyRel; exact inferInstance

/-- Embeds `get_nearby_centers` (src/main.py:134-155): keep the centers whose
(unrounded) haversine distance from the query point is at most `radius`, pair
each with its distance rounded to two decimals (`distance_km`, attached to a
copy, the stored record is untouched), and stably sort by that rounded
distance. -/
noncomputable def get_nearby_centers (lat lng radius : ℝ) (centers : List Center) :
    List (Center × ℝ) :=
  List.insertionSort distKeyRel
    (centers.filterMap fun c =>
      let d := haversine_distance lat lng (c.lat : ℝ) (c.lng : ℝ)
      if d ≤ radius then some (c, round2 d) else none)

/-- Requests of the HTTP surface. Parameters arrive as the types FastAPI
coerces them to before validation: integers for `limit`/`offset`, reals for
the geo query. -/
inductive Request where
  | root : Request
  | allCenters (limit offset : Int) : Request
  | byId (cid : String) : Request
  | search (q : String) : Request
  | discipline (name : String) : Request
  | disciplines : Request
  | pathology (name : String) : Request
  | pathologies : Request
  | nearby (lat lng radius : ℝ) : Request

/-- Response envelopes of the endpoints, plus the two client-error faults:
`validationError` (FastAPI parameter validation, HTTP 422) and `notFound`
(HTTP 404 with a detail message). -/
inductive Response where
  | rootInfo (message : String) (total : Nat) : Response
  | centersPage (total : Nat) (limit offset : Int) (data : List Center) : Response
  | center (c : Center) : Response
  | searchResults (query : String) (count : Nat) (data : List Center) : Response
  | disciplineResults (name : String) (count : Nat) (data : List Center) : Response
  | disciplinesList (count : Nat) (names : List String) : Response
  | pathologyResults (name : String) (count : Nat) (data : List Center) : Response
  | pathologiesList (count : Nat) (names : List String) : Response
  | nearbyResults (lat lng radius : ℝ) (count : Nat) (data : List (Center × ℝ)) : Response
  | validationError : Response
  | notFound (detail : String) : Response

/-- Request dispatch: FastAPI's parameter validation (`Query(ge=1, le=500)`,
`Query(ge=0)`, `Query(min_length=2)`, `Query(ge=1, le=500)` for the radius)
followed by the handler body. The collection is threaded through unchanged,
making the read-only nature of every handler explicit. -/
noncomputable def step (centers : List Center) : Request → Response × List Center
  | .root => (.rootInfo "Sports Health Centers API" centers.length, centers)
  | .allCenters limit offset =>
    if 1 ≤ limit ∧ limit ≤ 500 ∧ 0 ≤ offset then
      (.centersPage centers.length limit offset
        (get_all_centers limit.toNat offset.toNat centers), centers)
    else (.validationError, centers)
  | .byId cid =>
    match get_center_by_id cid centers with
    | some c => (.center c, centers)
    | none => (.notFound ("Center with id " ++ cid ++ " not found"), centers)
  | .search q =>
    if 2 ≤ q.length then
      (.searchResults q (search_centers q centers).length (search_centers q centers), centers)
    else (.validationError, centers)
  | .discipline name =>
    (.disciplineResults name (get_by_discipline name centers).length
      (get_by_discipline name centers), centers)
  | .disciplines =>
    (.disciplinesList (list_disciplines centers).length (list_disciplines centers), centers)
  | .pathology name =>
    (.pathologyResults name (get_by_pathology name centers).length
      (get_by_pathology name centers), centers)
  | .pathologies =>
    (.pathologiesList (list_pathologies centers).length (list_pathologies centers), centers)
  | .nearby lat lng radius =>
    if 1 ≤ radius ∧ radius ≤ 500 then
      (.nearbyResults lat lng radius (get_nearby_centers lat lng radius centers).length
        (get_nearby_centers lat lng radius centers), centers)
    else (.validationError, centers)

/-- Runs a sequence of requests, threading the collection through. -/
noncomputable def runRequests (centers : List Center) (reqs : List Request) : List Center :=
  reqs.foldl (fun s r => (step s r).2) centers

/-- Sample record 0.000036° of latitude north of the point (47.39, 0.69):
about 4 meters away, so its rounded distance is 0.00 km. -/
def cNear8 : Center := ⟨"near", "", "", "", "", "", 11847509/250000, 69/100⟩

/-- Sample record exactly at the point (47.39, 0.69). -/
def cExact8 : Center := ⟨"exact", "", "", "", "", "", 4739/100, 69/100⟩

/-- Sample record at latitude 0.00907°, longitude 0: about 1.0085 km from the
origin along the meridian, so its rounded distance is 1.01 km. -/
def cA9 : Center := ⟨"farther", "", "", "", "", "", 907/100000, 0⟩

/-- Sample record at latitude 0.00906°, longitude 0: about 1.0074 km from the
origin along the meridian, so its rounded distance is also 1.01 km. -/
def cB9 : Center := ⟨"closer", "", "", "", "", "", 453/50000, 0⟩

/-- Sample record whose discipline field contains the keyword `te`. -/
def cW2 : Center := ⟨"1", "Maison Sport", "", "Tennis de table", "", "", 0, 0⟩

/-- Sample record whose discipline field contains `Tennis` amid another
listed discipline. -/
def cW3 : Center := ⟨"2", "", "", "Tennis de table\r\nBasket", "Cancer", "", 0, 0⟩

/-- Sample records for the pagination witness. -/
def cW5a : Center := ⟨"a", "", "", "", "", "", 0, 0⟩

/-- Second sample record for the pagination witness. -/
def cW5b : Center := ⟨"b", "", "", "", "", "", 0, 0⟩

/-- Third sample record for the pagination witness. -/
def cW5c : Center := ⟨"c", "", "", "", "", "", 0, 0⟩

/-- Sample record with id `abc` for the lookup witness. -/
def cW6 : Center := ⟨"abc", "", "", "", "", "", 0, 0⟩

instance : IsTotal String strLeRel :=
  ⟨fun a b => by
    unfold strLeRel
    suffices h : ∀ x y : List Char, lexLe x y = true ∨ lexLe y x = true from h a.data b.data
    intro x
    induction x with
    | nil => intro y; left; rfl
    | cons c cs ih =>
      intro y
      cases y with
      | nil => right; rfl
      | cons d ds =>
        rcases lt_trichotomy c d with h1 | h1 | h1
        · left; simp [lexLe, h1]
        · subst h1
          rcases ih ds with h2 | h2
          · left; simp [lexLe, h2]
          · right; simp [lexLe, h2]
        · right; simp [lexLe, h1]⟩

instance : IsTrans String strLeRel :=
  ⟨fun a b c => by
    unfold strLeRel
    suffices h : ∀ x y z : List Char,
        lexLe x y = true → lexLe y z = true → lexLe x z = true from h a.data b.data c.data
    intro x
    induction x with
    | nil => intro y z _ _; rfl
    | cons p ps ih =>
      intro y z hxy hyz
      cases y with
      | nil => simp [lexLe] at hxy
      | cons q qs =>
        cases z with
        | nil => simp [lexLe] at hyz
        | cons r rs =>
          by_cases hpq : p < q
          · by_cases hqr : q < r
            · have hpr : p < r := lt_trans hpq hqr
              simp [lexLe, hpr]
            · by_cases hrq : r < q
              · simp [lexLe, hqr, hrq] at hyz
              · have hq : q = r := le_antisymm (not_lt.mp hrq) (not_lt.mp hqr)
                subst hq
                simp [lexLe, hpq]
          · by_cases hqp : q < p
            · simp [lexLe, hpq, hqp] at hxy
            · have hp : p = q := le_antisymm (not_lt.mp hqp) (not_lt.mp hpq)
              subst hp
              simp only [lexLe, lt_irrefl, if_false] at hxy
              by_cases hpr : p < r
              · simp [lexLe, hpr]
              · by_cases hrp : r < p
                · simp [lexLe, hpr, hrp] at hyz
                · have hr : p = r := le_antisymm (not_lt.mp hrp) (not_lt.mp hpr)
                  subst hr
                  simp only [lexLe, lt_irrefl, if_false] at hyz ⊢
                  exact ih qs rs hxy hyz⟩

instance : IsTotal (Center × ℝ) distKeyRel := ⟨fun a b => le_total a.2 b.2⟩

instance : IsTrans (Center × ℝ) distKeyRel := ⟨fun _ _ _ h h' => le_trans h h'⟩

/-- Every handler threads the collection through unchanged. -/
theorem step_snd (centers : List Center) (r : Request) : (step centers r).2 = centers := by
  cases r with
  | root => rfl
  | allCenters limit offset => simp only [step]; split <;> rfl
  | byId cid =>
    simp only [step]
    cases h : get_center_by_id cid centers <;> rfl
  | search q => simp only [step]; split <;> rfl
  | discipline name => rfl
  | disciplines => rfl
  | pathology name => rfl
  | pathologies => rfl
  | nearby lat lng radius => simp only [step]; split <;> rfl

/-- Inserting into a list, the sublist of entries carrying a fixed sort key is
extended at the front exactly when the inserted entry carries that key:
insertion never passes over an entry of equal key. -/
theorem filter_snd_orderedInsert (a : Center × ℝ) (l : List (Center × ℝ)) (d : ℝ) :
    (List.orderedInsert distKeyRel a l).filter (fun x => x.2 = d) =
      if a.2 = d then a :: l.filter (fun x => x.2 = d) else l.filter (fun x => x.2 = d) := by
  induction l with
  | nil => by_cases h : a.2 = d <;> simp [h]
  | cons b t ih =>
    by_cases hab : distKeyRel a b
    · by_cases had : a.2 = d <;> simp [List.orderedInsert, hab, List.filter_cons, had]
    · have hba : b.2 < a.2 := not_le.mp (by simpa [distKeyRel] using hab)
      by_cases had : a.2 = d
      · have hbd : ¬ b.2 = d := by rw [← had]; exact ne_of_lt hba
        simp [List.orderedInsert, hab, List.filter_cons, ih, had, hbd]
      · simp [List.orderedInsert, hab, List.filter_cons, ih, had]

/-- Stability of the sort in `get_nearby_centers`: for every key value, the
entries carrying that key appear in the sorted output in the same order as in
the input. -/
theorem filter_snd_insertionSort (l : List (Center × ℝ)) (d : ℝ) :
    (List.insertionSort distKeyRel l).filter (fun x => x.2 = d) =
      l.filter (fun x => x.2 = d) := by
  induction l with
  | nil => rfl
  | cons a t ih =>
    simp only [List.insertionSort]
    rw [filter_snd_orderedInsert]
    by_cases had : a.2 = d <;> simp [List.filter_cons, had, ih]

/-- The filter-and-annotate loop of `get_nearby_centers`, written as a
`filterMap`, equals filtering by the radius test and then attaching the
rounded distance. -/
theorem nearby_filterMap_eq (lat lng radius : ℝ) (centers : List Center) :
    (centers.filterMap fun c =>
        let d := haversine_distance lat lng (c.lat : ℝ) (c.lng : ℝ)
        if d ≤ radius then some (c, round2 d) else none) =
      (centers.filter fun c =>
          haversine_distance lat lng (c.lat : ℝ) (c.lng : ℝ) ≤ radius).map
        (fun c => (c, round2 (haversine_distance lat lng (c.lat : ℝ) (c.lng : ℝ)))) := by
  induction centers with
  | nil => rfl
  | cons c t ih =>
    by_cases h : haversine_distance lat lng (c.lat : ℝ) (c.lng : ℝ) ≤ radius <;>
      simp [List.filterMap_cons, List.filter_cons, h, ih]

/-- The nearby results are, up to ordering, exactly the centers passing the
radius test, each annotated with its rounded distance. -/
theorem get_nearby_perm (lat lng radius : ℝ) (centers : List Center) :
    (get_nearby_centers lat lng radius centers).Perm
      ((centers.filter fun c =>
          haversine_distance lat lng (c.lat : ℝ) (c.lng : ℝ) ≤ radius).map
        (fun c => (c, round2 (haversine_distance lat lng (c.lat : ℝ) (c.lng : ℝ))))) := by
  unfold get_nearby_centers
  rw [nearby_filterMap_eq]
  exact List.perm_insertionSort _ _

/-- The nearby results are sorted by the attached rounded distance. -/
theorem get_nearby_sorted (lat lng radius : ℝ) (centers : List Center) :
    (get_nearby_centers lat lng radius centers).Pairwise distKeyRel :=
  List.sorted_insertionSort distKeyRel _

/-- Order of ties in the nearby results: for every key value `d`, the records
returned with `distance_km = d` are exactly the centers within radius whose
rounded distance is `d`, in collection order. -/
theorem get_nearby_filter_snd (lat lng radius d : ℝ) (centers : List Center) :
    ((get_nearby_centers lat lng radius centers).filter (fun x => x.2 = d)).map Prod.fst =
      centers.filter (fun c =>
        haversine_distance lat lng (c.lat : ℝ) (c.lng : ℝ) ≤ radius ∧
          round2 (haversine_distance lat lng (c.lat : ℝ) (c.lng : ℝ)) = d) := by
  unfold get_nearby_centers
  rw [filter_snd_insertionSort, nearby_filterMap_eq]
  induction centers with
  | nil => rfl
  | cons c t ih =>
    by_cases h1 : haversine_distance lat lng (c.lat : ℝ) (c.lng : ℝ) ≤ radius <;>
      by_cases h2 : round2 (haversine_distance lat lng (c.lat : ℝ) (c.lng : ℝ)) = d <;>
        simp [List.filter_cons, List.map_cons, h1, h2, ih]

/-- On a meridian (equal longitudes) the haversine formula collapses to arc
length: for a latitude difference of `δ` degrees, `0 ≤ δ ≤ 180`, the distance
is `6371 · δ · π / 180`. -/
theorem haversine_meridian (lat lng δ : ℝ) (h0 : 0 ≤ δ) (h1 : δ ≤ 180) :
    haversine_distance lat lng (lat + δ) lng = 6371 * (δ * Real.pi / 180) := by
  unfold haversine_distance
  have e1 : ((lat + δ) * Real.pi / 180 - lat * Real.pi / 180) / 2 = δ * Real.pi / 360 := by
    ring
  have e2 : (lng * Real.pi / 180 - lng * Real.pi / 180) / 2 = 0 := by ring
  rw [e1, e2, Real.sin_zero]
  have hx0 : 0 ≤ δ * Real.pi / 360 := by positivity
  have hxp : δ * Real.pi / 360 ≤ Real.pi / 2 := by
    have hπ : (0 : ℝ) < Real.pi := Real.pi_pos
    rw [div_le_div_iff₀ (by norm_num) (by norm_num)]
    nlinarith
  have hs : Real.sin (δ * Real.pi / 360) ^ 2 + Real.cos (lat * Real.pi / 180) *
      Real.cos ((lat + δ) * Real.pi / 180) * 0 ^ 2 = Real.sin (δ * Real.pi / 360) ^ 2 := by
    ring
  rw [hs, Real.sqrt_sq_eq_abs,
    abs_of_nonneg (Real.sin_nonneg_of_nonneg_of_le_pi hx0
      (le_trans hxp (half_le_self Real.pi_pos.le))),
    Real.arcsin_sin (le_trans (neg_nonpos.mpr (by positivity)) hx0) hxp]
  ring

/-- A center at exactly the query point is at haversine distance zero. -/
theorem haversine_self (lat lng : ℝ) : haversine_distance lat lng lat lng = 0 := by
  have h := haversine_meridian lat lng 0 le_rfl (by norm_num)
  simpa using h

/-- The haversine distance is never negative. -/
theorem haversine_nonneg (lat1 lon1 lat2 lon2 : ℝ) :
    0 ≤ haversine_distance lat1 lon1 lat2 lon2 := by
  unfold haversine_distance
  have h := Real.arcsin_nonneg.mpr (Real.sqrt_nonneg
    (Real.sin ((lat2 * Real.pi / 180 - lat1 * Real.pi / 180) / 2) ^ 2 +
      Real.cos (lat1 * Real.pi / 180) * Real.cos (lat2 * Real.pi / 180) *
        Real.sin ((lon2 * Real.pi / 180 - lon1 * Real.pi / 180) / 2) ^ 2))
  positivity

/-- Rounding to two decimals at zero. -/
theorem round2_zero : round2 0 = 0 := by
  simp [round2]

/-- Rounding to two decimals preserves nonnegativity. -/
theorem round2_nonneg (x : ℝ) (h : 0 ≤ x) : 0 ≤ round2 x := by
  unfold round2
  apply div_nonneg _ (by norm_num)
  have hz : (0 : ℤ) ≤ round (x * 100) := by
    rw [round_eq]
    apply Int.le_floor.mpr
    push_cast
    linarith
  exact_mod_cast hz

/-- Value of `round2` pinned by rational bounds on `100·x`. -/
theorem round2_eq_of_bounds (x : ℝ) (n : ℤ) (h1 : (n : ℝ) - 1 / 2 ≤ x * 100)
    (h2 : x * 100 < (n : ℝ) + 1 / 2) : round2 x = (n : ℝ) / 100 := by
  unfold round2
  have hr : round (x * 100) = n := by
    rw [round_eq]
    apply Int.floor_eq_iff.mpr
    constructor
    · linarith
    · linarith
  rw [hr]

/-- C2: a search keyword of fewer than 2 characters is rejected as a
validation error; for a keyword of length at least 2, search returns exactly
the records whose lowercased name, description or raw discipline field (not
the parsed token list) contains the lowercased keyword as a substring, in
collection order. -/
theorem search_keyword_spec (centers : List Center) (q : String) (h2 : 2 ≤ q.length) :
    (step centers (Request.search q)).1 =
        Response.searchResults q (search_centers q centers).length (search_centers q centers) ∧
      (search_centers q centers).Sublist centers ∧
      (∀ c : Center, c ∈ search_centers q centers ↔ c ∈ centers ∧
        (strContains (lowerStr c.name) (lowerStr q) ∨
          strContains (lowerStr c.description) (lowerStr q) ∨
          strContains (lowerStr c.discipline) (lowerStr q))) ∧
      (∀ q' : String, q'.length < 2 →
        (step centers (Request.search q')).1 = Response.validationError) := by
  refine ⟨?_, List.filter_sublist _, ?_, ?_⟩
  · simp only [step, if_pos h2]
  · intro c
    unfold search_centers
    rw [List.mem_filter]
    simp [strContainsB, or_assoc]
  · intro q' hq'
    have hn : ¬ 2 ≤ q'.length := by omega
    simp only [step, if_neg hn]

/-- C3: for a non-empty name, the discipline filter returns exactly the
records whose raw discipline field contains the name as a case-insensitive
substring, in collection order; the pathology filter has identical semantics
over the raw pathologies field. Neither does token-exact matching. -/
theorem discipline_pathology_substring_spec (centers : List Center) (name : String)
    (h : name ≠ "") :
    (step centers (Request.discipline name)).1 =
        Response.disciplineResults name (get_by_discipline name centers).length
          (get_by_discipline name centers) ∧
      (get_by_discipline name centers).Sublist centers ∧
      (∀ c : Center, c ∈ get_by_discipline name centers ↔ c ∈ centers ∧
        strContains (lowerStr c.discipline) (lowerStr name)) ∧
      (step centers (Request.pathology name)).1 =
        Response.pathologyResults name (get_by_pathology name centers).length
          (get_by_pathology name centers) ∧
      (get_by_pathology name centers).Sublist centers ∧
      (∀ c : Center, c ∈ get_by_pathology name centers ↔ c ∈ centers ∧
        strContains (lowerStr c.pathologies) (lowerStr name)) := by
  refine ⟨rfl, List.filter_sublist _, ?_, rfl, List.filter_sublist _, ?_⟩ <;>
    · intro c
      simp [get_by_discipline, get_by_pathology, List.mem_filter, strContainsB]

/-- C10: the empty name is not rejected by the discipline and pathology
filters; it matches every record (the empty string is a substring of every
field), so the whole collection is returned in order, with the count equal to
the collection size. -/
theorem empty_name_returns_all (centers : List Center) :
    (step centers (Request.discipline "")).1 =
        Response.disciplineResults "" centers.length centers ∧
      (step centers (Request.pathology "")).1 =
        Response.pathologyResults "" centers.length centers := by
  have hd : get_by_discipline "" centers = centers := by
    unfold get_by_discipline
    apply List.filter_eq_self.mpr
    intro c _
    exact decide_eq_true (List.nil_infix)
  have hp : get_by_pathology "" centers = centers := by
    unfold get_by_pathology
    apply List.filter_eq_self.mpr
    intro c _
    exact decide_eq_true (List.nil_infix)
  constructor
  · simp only [step, hd]
  · simp only [step, hp]

/-- C5: for a limit in `[1, 500]` and a nonnegative offset, the list-all
endpoint reports the collection size as `total` and returns the slice of the
collection starting at `offset` of length at most `limit`, so the returned
length is `min limit (total - offset)` (`0` when `offset ≥ total`, by
truncated subtraction); out-of-range limit or negative offset is rejected
with a validation error. -/
theorem pagination_spec (centers : List Center) (limit offset : Int)
    (h1 : 1 ≤ limit) (h2 : limit ≤ 500) (h3 : 0 ≤ offset) :
    (step centers (Request.allCenters limit offset)).1 =
        Response.centersPage centers.length limit offset
          ((centers.drop offset.toNat).take limit.toNat) ∧
      ((centers.drop offset.toNat).take limit.toNat).length =
        min limit.toNat (centers.length - offset.toNat) ∧
      (∀ l o : Int, (l < 1 ∨ 500 < l ∨ o < 0) →
        (step centers (Request.allCenters l o)).1 = Response.validationError) := by
  refine ⟨?_, ?_, ?_⟩
  · simp only [step, if_pos (And.intro h1 (And.intro h2 h3))]
    rfl
  · rw [List.length_take, List.length_drop]
  · intro l o hlo
    have hno : ¬ (1 ≤ l ∧ l ≤ 500 ∧ 0 ≤ o) := by omega
    simp only [step, if_neg hno]

/-- C6: looking up an id present in the collection returns a record whose id
field equals the query id; an absent id yields a NotFound fault whose message
carries the requested id, and NotFound is distinct from a validation fault. -/
theorem get_by_id_spec (centers : List Center) (cid : String) :
    ((∃ c ∈ centers, c.id = cid) →
      ∃ c : Center, (step centers (Request.byId cid)).1 = Response.center c ∧
        c.id = cid ∧ c ∈ centers) ∧
    ((∀ c ∈ centers, c.id ≠ cid) →
      (step centers (Request.byId cid)).1 =
          Response.notFound ("Center with id " ++ cid ++ " not found") ∧
        strContains ("Center with id " ++ cid ++ " not found") cid ∧
        ∀ s : String, Response.notFound s ≠ Response.validationError) := by
  constructor
  · rintro ⟨c, hc, hid⟩
    have hsome : (centers.find? fun c => c.id == cid).isSome := by
      rw [List.find?_isSome]
      exact ⟨c, hc, by simpa using hid⟩
    obtain ⟨c₀, hc₀⟩ := Option.isSome_iff_exists.mp hsome
    refine ⟨c₀, ?_, ?_, List.mem_of_find?_eq_some hc₀⟩
    · simp only [step, get_center_by_id, hc₀]
    · have hh := List.find?_some hc₀
      simpa using hh
  · intro hall
    have hnone : (centers.find? fun c => c.id == cid) = none := by
      rw [List.find?_eq_none]
      intro c hc
      simpa using hall c hc
    refine ⟨?_, ?_, ?_⟩
    · simp only [step, get_center_by_id, hnone]
    · unfold strContains
      rw [String.data_append, String.data_append]
      exact List.infix_append _ _ _
    · intro s hcontra
      exact Response.noConfusion hcontra

/-- C7: no request handler mutates the loaded collection: after any sequence
of requests the stored collection is unchanged, and consequently repeating a
read request yields the identical response. -/
theorem read_only_spec (centers : List Center) (reqs : List Request) (r : Request) :
    runRequests centers reqs = centers ∧
      (step (runRequests centers reqs) r).1 = (step centers r).1 := by
  have hrun : ∀ s : List Center, runRequests s reqs = s := by
    induction reqs with
    | nil => intro s; rfl
    | cons a t ih =>
      intro s
      unfold runRequests
      rw [List.foldl_cons, step_snd]
      exact ih s
  exact ⟨hrun centers, by rw [hrun centers]⟩

/-- Sorting the deduplicated token list keeps it duplicate-free, makes it
sorted, and preserves membership. -/
theorem sort_dedup_spec (l : List String) :
    (List.insertionSort strLeRel l.dedup).Nodup ∧
      (List.insertionSort strLeRel l.dedup).Pairwise strLeRel ∧
      ∀ x : String, x ∈ List.insertionSort strLeRel l.dedup ↔ x ∈ l := by
  have hperm := List.perm_insertionSort strLeRel l.dedup
  exact ⟨hperm.symm.nodup (List.nodup_dedup l),
    List.sorted_insertionSort strLeRel _,
    fun x => by rw [hperm.mem_iff, List.mem_dedup]⟩

/-- A token produced by `fieldTokens` is never the empty string. -/
theorem ne_empty_of_mem_fieldTokens {x field : String} (h : x ∈ fieldTokens field) :
    x ≠ "" := by
  unfold fieldTokens at h
  have hx := (List.mem_filter.mp h).2
  simpa using hx

/-- C4: `list_disciplines` (and identically `list_pathologies` over the
pathologies field) splits every record's field on `\r\n`, trims the segments,
drops those empty after trimming, and returns the set-union of the tokens
sorted in code-point order; hence the output holds no empty string and no
duplicate, is sorted, and on the two-record example dataset it is exactly
`["Basket", "Tennis"]`. -/
theorem list_tokens_spec (centers : List Center) :
    ("" ∉ list_disciplines centers ∧ (list_disciplines centers).Nodup ∧
        (list_disciplines centers).Pairwise strLeRel ∧
        (∀ x : String, x ∈ list_disciplines centers ↔
          ∃ c ∈ centers, x ∈ fieldTokens c.discipline)) ∧
      ("" ∉ list_pathologies centers ∧ (list_pathologies centers).Nodup ∧
        (list_pathologies centers).Pairwise strLeRel ∧
        (∀ x : String, x ∈ list_pathologies centers ↔
          ∃ c ∈ centers, x ∈ fieldTokens c.pathologies)) ∧
      list_disciplines [⟨"1", "", "", "Tennis\r\nBasket\r\n", "", "", 0, 0⟩,
        ⟨"2", "", "", "Tennis\r\n", "", "", 0, 0⟩] = ["Basket", "Tennis"] := by
  obtain ⟨hd1, hd2, hd3⟩ := sort_dedup_spec (centers.flatMap fun c => fieldTokens c.discipline)
  obtain ⟨hp1, hp2, hp3⟩ := sort_dedup_spec (centers.flatMap fun c => fieldTokens c.pathologies)
  unfold list_disciplines list_pathologies
  refine ⟨⟨?_, hd1, hd2, ?_⟩, ⟨?_, hp1, hp2, ?_⟩, by decide⟩
  · intro hmem
    obtain ⟨c, _, htok⟩ := List.mem_flatMap.mp ((hd3 "").mp hmem)
    exact ne_empty_of_mem_fieldTokens htok rfl
  · intro x
    rw [hd3 x, List.mem_flatMap]
  · intro hmem
    obtain ⟨c, _, htok⟩ := List.mem_flatMap.mp ((hp3 "").mp hmem)
    exact ne_empty_of_mem_fieldTokens htok rfl
  · intro x
    rw [hp3 x, List.mem_flatMap]

/-- Closed form of `get_nearby_centers` used to evaluate it on concrete
datasets: sort of the radius-filtered, distance-annotated list. -/
theorem get_nearby_eval (lat lng radius : ℝ) (centers : List Center) :
    get_nearby_centers lat lng radius centers =
      List.insertionSort distKeyRel
        ((centers.filter fun c =>
            haversine_distance lat lng (c.lat : ℝ) (c.lng : ℝ) ≤ radius).map
          (fun c => (c, round2 (haversine_distance lat lng (c.lat : ℝ) (c.lng : ℝ))))) := by
  unfold get_nearby_centers
  rw [nearby_filterMap_eq]

/-- C1: for any query point and radius in `[1, 500]`, nearby returns exactly
the records whose haversine distance from the query point is at most the
radius (inclusive), each annotated with its rounded distance (`distance_km`);
the result is sorted by `distance_km` in non-decreasing order
(`distKeyRel x y` is `x.2 ≤ y.2`), and for each key value the records
carrying it appear in collection order (stable sort). -/
theorem nearby_radius_sort_spec (centers : List Center) (lat lng radius : ℝ)
    (hr1 : 1 ≤ radius) (hr2 : radius ≤ 500) :
    (get_nearby_centers lat lng radius centers).Perm
        ((centers.filter fun c =>
            haversine_distance lat lng (c.lat : ℝ) (c.lng : ℝ) ≤ radius).map
          (fun c => (c, round2 (haversine_distance lat lng (c.lat : ℝ) (c.lng : ℝ))))) ∧
      (get_nearby_centers lat lng radius centers).Pairwise distKeyRel ∧
      ∀ d : ℝ, ((get_nearby_centers lat lng radius centers).filter
          (fun x => x.2 = d)).map Prod.fst =
        centers.filter (fun c =>
          haversine_distance lat lng (c.lat : ℝ) (c.lng : ℝ) ≤ radius ∧
            round2 (haversine_distance lat lng (c.lat : ℝ) (c.lng : ℝ)) = d) :=
  ⟨get_nearby_perm lat lng radius centers, get_nearby_sorted lat lng radius centers,
    fun d => get_nearby_filter_snd lat lng radius d centers⟩

/-- C8 (amended): a center whose coordinates equal the query point is
returned by `nearby(47.39, 0.69, 50)` carrying `distance_km = 0.0`, and the
first element of the returned data carries `distance_km = 0.0`; the first
element need not be that center itself, since another record whose distance
rounds to 0.00 may precede it in collection order. -/
theorem nearby_exact_match_spec (centers : List Center) (c : Center) (hc : c ∈ centers)
    (hlat : (c.lat : ℝ) = 47.39) (hlng : (c.lng : ℝ) = 0.69) :
    (c, 0) ∈ get_nearby_centers 47.39 0.69 50 centers ∧
      ∃ p : Center × ℝ, ∃ l : List (Center × ℝ),
        get_nearby_centers 47.39 0.69 50 centers = p :: l ∧ p.2 = 0 := by
  have hdist : haversine_distance 47.39 0.69 (c.lat : ℝ) (c.lng : ℝ) = 0 := by
    rw [hlat, hlng]
    exact haversine_self 47.39 0.69
  have hperm := get_nearby_perm 47.39 0.69 50 centers
  have hmem : (c, (0 : ℝ)) ∈
      (centers.filter fun c' =>
          haversine_distance 47.39 0.69 (c'.lat : ℝ) (c'.lng : ℝ) ≤ 50).map
        (fun c' => (c', round2 (haversine_distance 47.39 0.69 (c'.lat : ℝ) (c'.lng : ℝ)))) := by
    apply List.mem_map.mpr
    refine ⟨c, List.mem_filter.mpr ⟨hc, decide_eq_true ?_⟩, ?_⟩
    · rw [hdist]; norm_num
    · rw [hdist, round2_zero]
  have hmem' : (c, (0 : ℝ)) ∈ get_nearby_centers 47.39 0.69 50 centers :=
    hperm.mem_iff.mpr hmem
  refine ⟨hmem', ?_⟩
  rcases hres : get_nearby_centers 47.39 0.69 50 centers with _ | ⟨p, l⟩
  · rw [hres] at hmem'
    cases hmem'
  · refine ⟨p, l, rfl, ?_⟩
    have hsorted := get_nearby_sorted 47.39 0.69 50 centers
    rw [hres] at hsorted hmem'
    have hpnonneg : 0 ≤ p.2 := by
      have hpmem : p ∈ get_nearby_centers 47.39 0.69 50 centers := by
        rw [hres]; exact List.mem_cons_self p l
      obtain ⟨c', _, heq⟩ := List.mem_map.mp (hperm.mem_iff.mp hpmem)
      rw [← heq]
      exact round2_nonneg _ (haversine_nonneg 47.39 0.69 (c'.lat : ℝ) (c'.lng : ℝ))
    rcases List.mem_cons.mp hmem' with heq | htail
    · rw [← heq]
    · exact le_antisymm ((List.pairwise_cons.mp hsorted).1 (c, 0) htail) hpnonneg

/-- C8 (counterexample): a dataset containing a center exactly at the query
point (47.39, 0.69) for which `nearby(47.39, 0.69, 50)` does not return that
center first: a distinct record about 4 meters north, earlier in the
collection, also gets `distance_km = 0.0` and the stable sort keeps it
first. -/
theorem nearby_first_element_counterexample :
    ((cExact8.lat : ℚ) : ℝ) = 47.39 ∧ ((cExact8.lng : ℚ) : ℝ) = 0.69 ∧
      cNear8 ≠ cExact8 ∧
      (get_nearby_centers 47.39 0.69 50 [cNear8, cExact8]).head? = some (cNear8, 0) := by
  have hπu := Real.pi_lt_d6
  have hπl := Real.pi_gt_d6
  have hπ0 := Real.pi_pos
  have hcastN : ((cNear8.lat : ℚ) : ℝ) = 47.39 + 9 / 250000 := by
    norm_num [cNear8]
  have hcastNg : ((cNear8.lng : ℚ) : ℝ) = 0.69 := by norm_num [cNear8]
  have hcastE : ((cExact8.lat : ℚ) : ℝ) = 47.39 := by norm_num [cExact8]
  have hcastEg : ((cExact8.lng : ℚ) : ℝ) = 0.69 := by norm_num [cExact8]
  have hdN : haversine_distance 47.39 0.69 (cNear8.lat : ℝ) (cNear8.lng : ℝ) =
      6371 * (9 / 250000 * Real.pi / 180) := by
    rw [hcastN, hcastNg]
    exact haversine_meridian 47.39 0.69 (9 / 250000) (by norm_num) (by norm_num)
  have hdE : haversine_distance 47.39 0.69 (cExact8.lat : ℝ) (cExact8.lng : ℝ) = 0 := by
    rw [hcastE, hcastEg]
    exact haversine_self 47.39 0.69
  have hdN_le : haversine_distance 47.39 0.69 (cNear8.lat : ℝ) (cNear8.lng : ℝ) ≤ 50 := by
    rw [hdN]; nlinarith
  have hdE_le : haversine_distance 47.39 0.69 (cExact8.lat : ℝ) (cExact8.lng : ℝ) ≤ 50 := by
    rw [hdE]; norm_num
  have hbN1 : ((0 : ℤ) : ℝ) - 1 / 2 ≤ 6371 * (9 / 250000 * Real.pi / 180) * 100 := by
    push_cast
    nlinarith
  have hbN2 : 6371 * (9 / 250000 * Real.pi / 180) * 100 < ((0 : ℤ) : ℝ) + 1 / 2 := by
    push_cast
    nlinarith
  have hdN_round : round2 (haversine_distance 47.39 0.69 (cNear8.lat : ℝ) (cNear8.lng : ℝ)) =
      0 := by
    rw [hdN, round2_eq_of_bounds (6371 * (9 / 250000 * Real.pi / 180)) 0 hbN1 hbN2]
    norm_num
  have hdE_round : round2 (haversine_distance 47.39 0.69 (cExact8.lat : ℝ) (cExact8.lng : ℝ)) =
      0 := by
    rw [hdE, round2_zero]
  refine ⟨hcastE, hcastEg, by decide, ?_⟩
  rw [get_nearby_eval, List.filter_cons, if_pos (decide_eq_true hdN_le), List.filter_cons,
    if_pos (decide_eq_true hdE_le), List.filter_nil, List.map_cons, List.map_cons,
    List.map_nil, hdN_round, hdE_round]
  simp [List.insertionSort, List.orderedInsert, distKeyRel]

/-- C9: the radius test of nearby is applied to the unrounded distance while
the attached (and sort-key) `distance_km` is the rounded one. First part: a
record whose true distance (about 1.00743 km) is within the 1.008 km radius
is returned carrying `distance_km = 1.01 > 1.008`. Second part: two records
whose true distances differ (about 1.00854 km vs 1.00743 km) but share the
rounded value 1.01 are returned in collection order, the farther one first
because it comes first in the collection. -/
theorem nearby_rounding_effects :
    ((1 : ℝ) ≤ 1.008 ∧ (1.008 : ℝ) ≤ 500 ∧
      haversine_distance 0 0 (cB9.lat : ℝ) (cB9.lng : ℝ) ≤ 1.008 ∧
      get_nearby_centers 0 0 1.008 [cB9] = [(cB9, 1.01)] ∧
      (1.008 : ℝ) < 1.01) ∧
    (haversine_distance 0 0 (cB9.lat : ℝ) (cB9.lng : ℝ) <
        haversine_distance 0 0 (cA9.lat : ℝ) (cA9.lng : ℝ) ∧
      round2 (haversine_distance 0 0 (cA9.lat : ℝ) (cA9.lng : ℝ)) =
        round2 (haversine_distance 0 0 (cB9.lat : ℝ) (cB9.lng : ℝ)) ∧
      get_nearby_centers 0 0 50 [cA9, cB9] = [(cA9, 1.01), (cB9, 1.01)]) := by
  have hπu := Real.pi_lt_d6
  have hπl := Real.pi_gt_d6
  have hπ0 := Real.pi_pos
  have hcastA : ((cA9.lat : ℚ) : ℝ) = 907 / 100000 := by norm_num [cA9]
  have hcastAg : ((cA9.lng : ℚ) : ℝ) = 0 := by norm_num [cA9]
  have hcastB : ((cB9.lat : ℚ) : ℝ) = 453 / 50000 := by norm_num [cB9]
  have hcastBg : ((cB9.lng : ℚ) : ℝ) = 0 := by norm_num [cB9]
  have hmA := haversine_meridian 0 0 (907 / 100000) (by norm_num) (by norm_num)
  rw [zero_add] at hmA
  have hmB := haversine_meridian 0 0 (453 / 50000) (by norm_num) (by norm_num)
  rw [zero_add] at hmB
  have hdA : haversine_distance 0 0 (cA9.lat : ℝ) (cA9.lng : ℝ) =
      6371 * (907 / 100000 * Real.pi / 180) := by
    rw [hcastA, hcastAg]; exact hmA
  have hdB : haversine_distance 0 0 (cB9.lat : ℝ) (cB9.lng : ℝ) =
      6371 * (453 / 50000 * Real.pi / 180) := by
    rw [hcastB, hcastBg]; exact hmB
  have hdB_le : haversine_distance 0 0 (cB9.lat : ℝ) (cB9.lng : ℝ) ≤ 1.008 := by
    rw [hdB]; nlinarith
  have hdA_le : haversine_distance 0 0 (cA9.lat : ℝ) (cA9.lng : ℝ) ≤ 50 := by
    rw [hdA]; nlinarith
  have hdB_le' : haversine_distance 0 0 (cB9.lat : ℝ) (cB9.lng : ℝ) ≤ 50 := by
    rw [hdB]; nlinarith
  have hbB1 : ((101 : ℤ) : ℝ) - 1 / 2 ≤ 6371 * (453 / 50000 * Real.pi / 180) * 100 := by
    push_cast
    nlinarith
  have hbB2 : 6371 * (453 / 50000 * Real.pi / 180) * 100 < ((101 : ℤ) : ℝ) + 1 / 2 := by
    push_cast
    nlinarith
  have hbA1 : ((101 : ℤ) : ℝ) - 1 / 2 ≤ 6371 * (907 / 100000 * Real.pi / 180) * 100 := by
    push_cast
    nlinarith
  have hbA2 : 6371 * (907 / 100000 * Real.pi / 180) * 100 < ((101 : ℤ) : ℝ) + 1 / 2 := by
    push_cast
    nlinarith
  have hdB_round : round2 (haversine_distance 0 0 (cB9.lat : ℝ) (cB9.lng : ℝ)) = 1.01 := by
    rw [hdB, round2_eq_of_bounds (6371 * (453 / 50000 * Real.pi / 180)) 101 hbB1 hbB2]
    norm_num
  have hdA_round : round2 (haversine_distance 0 0 (cA9.lat : ℝ) (cA9.lng : ℝ)) = 1.01 := by
    rw [hdA, round2_eq_of_bounds (6371 * (907 / 100000 * Real.pi / 180)) 101 hbA1 hbA2]
    norm_num
  refine ⟨⟨by norm_num, by norm_num, hdB_le, ?_, by norm_num⟩,
    ⟨?_, ?_, ?_⟩⟩
  · rw [get_nearby_eval, List.filter_cons, if_pos (decide_eq_true hdB_le), List.filter_nil,
      List.map_cons, List.map_nil, hdB_round]
    simp [List.insertionSort, List.orderedInsert]
  · rw [hdA, hdB]; nlinarith
  · rw [hdA_round, hdB_round]
  · rw [get_nearby_eval, List.filter_cons, if_pos (decide_eq_true hdA_le), List.filter_cons,
      if_pos (decide_eq_true hdB_le'), List.filter_nil, List.map_cons, List.map_cons,
      List.map_nil, hdA_round, hdB_round]
    simp [List.insertionSort, List.orderedInsert, distKeyRel]

/-- Witness for the C1 theorem at a concrete dataset and radius. -/
theorem nearby_radius_sort_spec_witness :
    (1 : ℝ) ≤ 50 ∧ (50 : ℝ) ≤ 500 ∧
      (get_nearby_centers 0 0 50 [cW5a]).Pairwise distKeyRel ∧
      ((get_nearby_centers 0 0 50 [cW5a]).filter (fun x => x.2 = 0)).map Prod.fst =
        List.filter (fun c => haversine_distance 0 0 (c.lat : ℝ) (c.lng : ℝ) ≤ 50 ∧
          round2 (haversine_distance 0 0 (c.lat : ℝ) (c.lng : ℝ)) = 0) [cW5a] :=
  ⟨by norm_num, by norm_num,
    (nearby_radius_sort_spec [cW5a] 0 0 50 (by norm_num) (by norm_num)).2.1,
    (nearby_radius_sort_spec [cW5a] 0 0 50 (by norm_num) (by norm_num)).2.2 0⟩

/-- Witness for the C2 theorem: the keyword `te` matches the sample record
through its discipline field. -/
theorem search_keyword_spec_witness :
    2 ≤ ("te" : String).length ∧
      (cW2 ∈ search_centers "te" [cW2] ↔ cW2 ∈ [cW2] ∧
        (strContains (lowerStr cW2.name) (lowerStr "te") ∨
          strContains (lowerStr cW2.description) (lowerStr "te") ∨
          strContains (lowerStr cW2.discipline) (lowerStr "te"))) ∧
      cW2 ∈ search_centers "te" [cW2] :=
  ⟨by decide, (search_keyword_spec [cW2] "te" (by decide)).2.2.1 cW2,
    ((search_keyword_spec [cW2] "te" (by decide)).2.2.1 cW2).mpr
      ⟨by decide, Or.inr (Or.inr (by decide))⟩⟩

/-- Witness for the C3 theorem: the name `tennis` matches a record whose
discipline field contains `Tennis de table` amid another discipline. -/
theorem discipline_pathology_substring_spec_witness :
    ("tennis" : String) ≠ "" ∧
      (cW3 ∈ get_by_discipline "tennis" [cW3] ↔ cW3 ∈ [cW3] ∧
        strContains (lowerStr cW3.discipline) (lowerStr "tennis")) ∧
      cW3 ∈ get_by_discipline "tennis" [cW3] :=
  ⟨by decide, (discipline_pathology_substring_spec [cW3] "tennis" (by decide)).2.2.1 cW3,
    ((discipline_pathology_substring_spec [cW3] "tennis" (by decide)).2.2.1 cW3).mpr
      ⟨by decide, by decide⟩⟩

/-- Witness for the C5 theorem: limit 2 and offset 1 on a three-record
collection yield the middle-to-end slice of length `min 2 (3 - 1) = 2`. -/
theorem pagination_spec_witness :
    (1 : ℤ) ≤ 2 ∧ (2 : ℤ) ≤ 500 ∧ (0 : ℤ) ≤ 1 ∧
      (step [cW5a, cW5b, cW5c] (Request.allCenters 2 1)).1 =
        Response.centersPage 3 2 1 [cW5b, cW5c] ∧
      ([cW5b, cW5c] : List Center).length = min 2 2 :=
  ⟨by decide, by decide, by decide,
    (pagination_spec [cW5a, cW5b, cW5c] 2 1 (by decide) (by decide) (by decide)).1,
    (pagination_spec [cW5a, cW5b, cW5c] 2 1 (by decide) (by decide) (by decide)).2.1⟩

/-- Witness for the C6 theorem: the id `abc` is found and returns the record
carrying it; the id `zzz` is absent and yields the NotFound fault carrying
the id in its message. -/
theorem get_by_id_spec_witness :
    (step [cW6] (Request.byId "abc")).1 = Response.center cW6 ∧
      (step [cW6] (Request.byId "zzz")).1 =
        Response.notFound "Center with id zzz not found" ∧
      strContains "Center with id zzz not found" "zzz" := by
  obtain ⟨c, hstep, hid, hmem⟩ :=
    (get_by_id_spec [cW6] "abc").1 ⟨cW6, List.mem_singleton.mpr rfl, rfl⟩
  have hc : c = cW6 := by simpa using hmem
  have h2 := (get_by_id_spec [cW6] "zzz").2 (by decide)
  rw [hc] at hstep
  exact ⟨hstep, h2.1, h2.2.1⟩

/-- Witness for the C8 amended theorem at a singleton dataset holding only
the exactly-matching record. -/
theorem nearby_exact_match_spec_witness :
    cExact8 ∈ [cExact8] ∧ ((cExact8.lat : ℚ) : ℝ) = 47.39 ∧
      ((cExact8.lng : ℚ) : ℝ) = 0.69 ∧
      (cExact8, (0 : ℝ)) ∈ get_nearby_centers 47.39 0.69 50 [cExact8] :=
  ⟨List.mem_singleton.mpr rfl, by norm_num [cExact8], by norm_num [cExact8],
    (nearby_exact_match_spec [cExact8] cExact8 (List.mem_singleton.mpr rfl)
      (by norm_num [cExact8]) (by norm_num [cExact8])).1⟩

end RegionalCenters
